import Mathlib

/-!
Verification of the reference-resolution core of the joft template tool.

The definitions below are a shallow embedding of the Python sources:
`joft/base.py` (reference pool, resolver, payload substitution, run loop,
uniqueness validation), `joft/models.py` (template construction) and
`joft/actions.py` (the four action wrappers).  Python dictionaries become
ordered association lists, in-place mutation becomes explicit state
passing, and raising becomes an error value.  Remote Jira calls are
modelled by an oracle structure together with a trace of issued calls.
-/

/-- A JSON-like Python value as it appears in template payloads and in the
generic field bag of a Jira issue.  The `float` constructor is opaque: the
code never inspects a float beyond its runtime type. -/
inductive PyVal where
  | int (n : Int)
  | float
  | bool (b : Bool)
  | none
  | str (s : String)
  | list (xs : List PyVal)
  | dict (xs : List (String × PyVal))

/-- Payloads (`fields` of an action): an insertion-ordered string-keyed
mapping, as a Python dict. -/
abbrev PyDict : Type := List (String × PyVal)

/-- Lookup of the first binding of a key in an ordered mapping,
mirroring Python `d[k]` / `k in d` on a dict without duplicate keys. -/
def dictGet {α : Type} (xs : List (String × α)) (k : String) : Option α :=
  (xs.find? (fun p => p.1 == k)).map (fun p => p.2)

/-- Python `k in d` for a dict. -/
def dictMem {α : Type} (xs : List (String × α)) (k : String) : Bool :=
  (dictGet xs k).isSome

/-- Python `d[k] = v`: overwrite in place when the key exists (keeping its
position), append otherwise. -/
def dictSet {α : Type} (xs : List (String × α)) (k : String) (v : α) :
    List (String × α) :=
  if dictMem xs k then xs.map (fun p => if p.1 == k then (k, v) else p)
  else xs ++ [(k, v)]

/-- Boolean check that `needle` occurs as a contiguous run inside `hay`,
the semantics of Python `needle in hay` for strings (at the level of
character lists).  An empty needle is contained in everything. -/
def listInfixCheck {α : Type} [BEq α] (needle : List α) : List α → Bool
  | [] => needle.isEmpty
  | a :: as => needle.isPrefixOf (a :: as) || listInfixCheck needle as

/-- Python `needle in hay` for strings, as a Bool. -/
def strContainsB (hay needle : String) : Bool :=
  listInfixCheck needle.data hay.data

/-- The containment statement used by the claims about error messages:
`needle` occurs verbatim inside `hay`. -/
def strContains (hay needle : String) : Prop :=
  strContainsB hay needle = true

theorem isPrefixOf_append_self {α : Type} [BEq α] [LawfulBEq α]
    (l t : List α) : l.isPrefixOf (l ++ t) = true := by
  induction l with
  | nil => simp [List.isPrefixOf]
  | cons a as ih => simp [List.isPrefixOf, ih]

theorem listInfixCheck_append {α : Type} [BEq α] [LawfulBEq α]
    (pre mid suf : List α) : listInfixCheck mid (pre ++ (mid ++ suf)) = true := by
  induction pre with
  | nil =>
    cases mid with
    | nil =>
      cases suf with
      | nil => rfl
      | cons b bs => simp [listInfixCheck]
    | cons m ms =>
      simp only [List.nil_append, List.cons_append, listInfixCheck]
      have h := isPrefixOf_append_self (m :: ms) suf
      simp only [List.cons_append] at h
      simp [h]
  | cons p ps ih =>
    cases mid with
    | nil => simp [listInfixCheck]
    | cons m ms =>
      have ih' := ih
      simp only [List.cons_append, listInfixCheck, List.append_eq] at ih' ⊢
      rw [ih']
      simp

/-- Any string of the shape `a ++ (needle ++ b)` contains `needle`. -/
theorem strContains_append (a needle b : String) :
    strContains (a ++ (needle ++ b)) needle := by
  show listInfixCheck needle.data (a ++ (needle ++ b)).data = true
  have h : (a ++ (needle ++ b)).data = a.data ++ (needle.data ++ b.data) := by
    simp [String.data_append]
  rw [h]
  exact listInfixCheck_append a.data needle.data b.data

/-- One left-to-right scan of Python `str.replace` over a character list,
structurally recursive on a fuel argument that bounds the scan length.
Assumes a non-empty needle (the wrapper handles the empty case). -/
def pyReplaceFuel (needle rep : List Char) : Nat → List Char → List Char
  | 0, s => s
  | _ + 1, [] => []
  | fuel + 1, c :: rest =>
    if needle.isPrefixOf (c :: rest) then
      rep ++ pyReplaceFuel needle rep fuel (List.drop (needle.length - 1) rest)
    else
      c :: pyReplaceFuel needle rep fuel rest

/-- Python `s.replace(needle, rep)`: replace every non-overlapping
occurrence, scanning left to right.  With an empty needle Python inserts
`rep` around every character. -/
def pyStrReplace (s needle rep : String) : String :=
  if needle.data.isEmpty then
    ⟨rep.data ++ s.data.flatMap (fun c => c :: rep.data)⟩
  else
    ⟨pyReplaceFuel needle.data rep.data s.data.length s.data⟩

/-- `joft.base.replace_ref`: literal substring replacement of the token
composed of a dollar sign, an opening brace, the reference name, and a
closing brace. -/
def replace_ref (field ref value : String) : String :=
  pyStrReplace field ("$\x7b" ++ ref ++ "\x7d") value

/-- The placeholder token looked for by the substitution engine. -/
def refToken (ref : String) : String := "$\x7b" ++ ref ++ "\x7d"

/-- The runtime errors the embedded code can raise. -/
inductive PyError where
  | exc (msg : String)
  | typeError (msg : String)
  | keyError (k : String)
  | attributeError (name : String)
  | valueError (msg : String)

/-- An opaque Jira issue handle as seen by the core: identity attributes,
the permalink operation, the specially accessed nested fields
(`fields.priority.name`, `fields.components[].name`, `fields.project.key`)
and a generic attribute bag for every other `fields.<name>` lookup. -/
structure IssueHandle where
  id : String
  key : String
  permalink_url : String
  priority_name : String
  component_names : List String
  project_key : String
  bag : List (String × PyVal)

/-- A value stored in the reference pool: either a JSON-like value
(strings, the component record lists, or whatever a generic field lookup
produced) or an issue handle bound by a trigger or an action. -/
inductive PoolVal where
  | val (v : PyVal)
  | issue (h : IssueHandle)

/-- The reference pool: an insertion-ordered mutable mapping from
identifiers and composite `id.field` keys to values. -/
abbrev Pool : Type := List (String × PoolVal)

/-- Python `needle in container` for the containers the substitution
engine meets: substring test on strings, element equality on lists (only
string elements can equal the string needle), key membership on dicts;
`TypeError` otherwise. -/
def pyContains (container : PyVal) (needle : String) : Except PyError Bool :=
  match container with
  | PyVal.str s => Except.ok (strContainsB s needle)
  | PyVal.list xs =>
    Except.ok (xs.any (fun x =>
      match x with
      | PyVal.str t => t == needle
      | _ => false))
  | PyVal.dict xs => Except.ok (dictMem xs needle)
  | _ => Except.error (PyError.typeError "argument is not iterable")

/-- Python `container[k]` for a string key. -/
def pyGetItem (container : PyVal) (k : String) : Except PyError PyVal :=
  match container with
  | PyVal.dict xs =>
    match dictGet xs k with
    | some v => Except.ok v
    | Option.none => Except.error (PyError.keyError k)
  | PyVal.str _ => Except.error (PyError.typeError "string indices must be integers")
  | PyVal.list _ => Except.error (PyError.typeError "list indices must be integers")
  | _ => Except.error (PyError.typeError "object is not subscriptable")

/-- Python `container[k] = v` for a string key. -/
def pySetItem (container : PyVal) (k : String) (v : PyVal) :
    Except PyError PyVal :=
  match container with
  | PyVal.dict xs => Except.ok (PyVal.dict (dictSet xs k v))
  | _ => Except.error (PyError.typeError "object does not support item assignment")

/-- Python iteration `for x in container`, as used by `list(map(...))` in
the labels branch: a string yields its characters as one-character
strings, a list its elements, a dict its keys. -/
def pyIter (container : PyVal) : Except PyError (List PyVal) :=
  match container with
  | PyVal.str s => Except.ok (s.data.map (fun c => PyVal.str (String.singleton c)))
  | PyVal.list xs => Except.ok xs
  | PyVal.dict xs => Except.ok (xs.map (fun p => PyVal.str p.1))
  | _ => Except.error (PyError.typeError "object is not iterable")

/-- `replace_ref` applied to a runtime value: Python calls `.replace` on
it, which only exists on strings. -/
def pyValReplaceRef (v : PyVal) (ref s : String) : Except PyError PyVal :=
  match v with
  | PyVal.str t => Except.ok (PyVal.str (replace_ref t ref s))
  | _ => Except.error (PyError.attributeError "replace")

/-- Replace the token inside every element of the labels field. -/
def mapReplaceAll (ref s : String) : List PyVal → Except PyError (List PyVal)
  | [] => Except.ok []
  | x :: rest => do
    let y ← pyValReplaceRef x ref s
    let ys ← mapReplaceAll ref s rest
    Except.ok (y :: ys)

/-- The body of the string-valued-pool-entry branch of the inner loop of
`apply_reference_pool_to_payload`: dispatch on the payload field name.
`fv` is the current value of the field, `ref` the pool key, `s` the pool
string value. -/
def strDispatch (field : String) (fv : PyVal) (ref s : String) :
    Except PyError PyVal :=
  if field == "project" then do
    let hasKey ← pyContains fv "key"
    if hasKey then do
      let u ← pyGetItem fv "key"
      let u2 ← pyValReplaceRef u ref s
      pySetItem fv "key" u2
    else do
      let hasName ← pyContains fv "name"
      if hasName then do
        let u ← pyGetItem fv "name"
        let u2 ← pyValReplaceRef u ref s
        pySetItem fv "name" u2
      else Except.ok fv
  else if field == "issuetype" || field == "assignee" || field == "priority" then do
    let u ← pyGetItem fv "name"
    let u2 ← pyValReplaceRef u ref s
    pySetItem fv "name" u2
  else if field == "labels" then do
    let xs ← pyIter fv
    let ys ← mapReplaceAll ref s xs
    Except.ok (PyVal.list ys)
  else do
    let b ← pyContains fv ref
    if b then pyValReplaceRef fv ref s else Except.ok fv

/-- One iteration of the inner `for ref, v in reference_pool.items()` loop
of `apply_reference_pool_to_payload` for a single payload field: pool
entries that are neither strings nor lists are skipped; a list value only
acts on the `components` field, replacing the whole field value when the
token occurs in it; a string value goes through the field-name dispatch. -/
def stepRefEntry (field : String) (fv : PyVal) (ref : String) (pv : PoolVal) :
    Except PyError PyVal :=
  match pv with
  | PoolVal.issue _ => Except.ok fv
  | PoolVal.val v =>
    match v with
    | PyVal.list l =>
      if field == "components" then do
        let b ← pyContains fv (refToken ref)
        if b then Except.ok (PyVal.list l) else Except.ok fv
      else Except.ok fv
    | PyVal.str s => strDispatch field fv ref s
    | _ => Except.ok fv

/-- The full inner loop over the pool for one payload field. -/
def applyPoolToField (field : String) (fv : PyVal) :
    Pool → Except PyError PyVal
  | [] => Except.ok fv
  | (ref, pv) :: rest => do
    let fv2 ← stepRefEntry field fv ref pv
    applyPoolToField field fv2 rest

/-- Python `type(x) in (int, float, bool)`: the simple scalars skipped by
the outer loop of the substitution engine. -/
def isScalar : PyVal → Bool
  | PyVal.int _ => true
  | PyVal.float => true
  | PyVal.bool _ => true
  | _ => false

/-- `joft.base.apply_reference_pool_to_payload`: walk the payload fields
in order; skip scalar-valued fields; run every pool entry against each
remaining field.  Mutation of the payload becomes the returned dict; an
uncaught Python exception becomes an error value. -/
def apply_reference_pool_to_payload (pool : Pool) :
    PyDict → Except PyError PyDict
  | [] => Except.ok []
  | (f, v) :: rest =>
    if isScalar v then do
      let tail ← apply_reference_pool_to_payload pool rest
      Except.ok ((f, v) :: tail)
    else do
      let v2 ← applyPoolToField f v pool
      let tail ← apply_reference_pool_to_payload pool rest
      Except.ok ((f, v2) :: tail)

/-- A reference declaration from a `reuse-data` section
(`joft.models.ReferenceData`). -/
structure ReferenceData where
  reference_id : String
  fields : List String

/-- Field extraction of `joft.base.update_reference_pool`: per-field-name
rules against the bound object.  The Python code blindly treats the pool
entry as an issue; attribute access on anything else raises. -/
def resolveField (obj : PoolVal) (field : String) : Except PyError PoolVal :=
  match obj with
  | PoolVal.val _ => Except.error (PyError.attributeError field)
  | PoolVal.issue h =>
    if field == "id" then Except.ok (PoolVal.val (PyVal.str h.id))
    else if field == "key" then Except.ok (PoolVal.val (PyVal.str h.key))
    else if field == "link" || field == "url" || field == "permalink" then
      Except.ok (PoolVal.val (PyVal.str h.permalink_url))
    else if field == "priority" then
      Except.ok (PoolVal.val (PyVal.str h.priority_name))
    else if field == "components" then
      Except.ok (PoolVal.val (PyVal.list
        (h.component_names.map (fun n => PyVal.dict [("name", PyVal.str n)]))))
    else if field == "project" then
      Except.ok (PoolVal.val (PyVal.str h.project_key))
    else
      match dictGet h.bag field with
      | some v => Except.ok (PoolVal.val v)
      | Option.none => Except.error (PyError.attributeError field)

/-- The `for field in ref.fields` loop of `update_reference_pool`: write
each extracted value under the composite key; on a raise the pool keeps
the writes made so far. -/
def resolveFields (rid : String) (obj : PoolVal) (pool : Pool) :
    List String → Pool × Option PyError
  | [] => (pool, Option.none)
  | f :: rest =>
    match resolveField obj f with
    | Except.error e => (pool, some e)
    | Except.ok v => resolveFields rid obj (dictSet pool (rid ++ "." ++ f) v) rest

/-- The message raised for a declaration whose input id is absent. -/
def missingRefMsg (rid : String) : String :=
  "The reference id \x27" ++ (rid ++ "\x27 is used before it was declared.")

/-- `joft.base.update_reference_pool`: process the declarations in order;
a declaration whose `reference_id` is not yet a pool key raises at once;
otherwise its fields are extracted from the bound object and written under
composite keys.  The pool state is returned even on error, matching the
in-place mutation of the Python dict. -/
def update_reference_pool :
    List ReferenceData → Pool → Pool × Option PyError
  | [], pool => (pool, Option.none)
  | r :: rest, pool =>
    if dictMem pool r.reference_id then
      let obj := (dictGet pool r.reference_id).getD (PoolVal.val PyVal.none)
      match resolveFields r.reference_id obj pool r.fields with
      | (pool2, some e) => (pool2, some e)
      | (pool2, Option.none) => update_reference_pool rest pool2
    else
      (pool, some (PyError.exc (missingRefMsg r.reference_id)))

/-- A constructed action object.  The Python dataclasses
`CreateTicketAction`, `UpdateTicketAction`, `LinkIssuesAction` and
`TransitionAction` share this duck-typed field layout; `reference_id`,
`transition` and `comment` are only meaningful for the variants whose
constructor requires them. -/
structure ActionObj where
  type : String
  fields : PyDict
  object_id : Option String
  reference_data : List ReferenceData
  reference_id : String
  transition : String
  comment : String

/-- The trigger (`joft.models.Trigger`): a search whose matches each seed
one execution pass. -/
structure Trigger where
  object_id : String
  jql : String

/-- A validated template (`joft.models.JiraTemplate` after
`__post_init__`). -/
structure JiraTemplate where
  jira_search : Option Trigger
  jira_actions : List ActionObj

/-- The raw dictionary of one action as read from the YAML file, before
`JiraTemplate.__post_init__` turns it into a typed action. -/
structure RawAction where
  type : String
  fields : PyDict
  object_id : Option String
  reference_id : Option String
  transition : Option String
  comment : Option String
  reuse_data : List ReferenceData

/-- The raw trigger mapping of the template file. -/
structure RawTrigger where
  object_id : String
  jql : String

/-- The raw template file content handed to `JiraTemplate(**template)`. -/
structure RawTemplate where
  trigger : Option RawTrigger
  actions : List RawAction

/-- The message of the unknown-action-kind exception raised by
`JiraTemplate.__post_init__`. -/
def unknownKindMsg (k : String) : String :=
  "Unknown Action \x27" ++ (k ++ "\x27! Aborting...")

/-- The four recognized action kinds. -/
def isKnownKind (t : String) : Bool :=
  t == "create-ticket" || t == "update-ticket" || t == "link-issues" ||
    t == "transition"

/-- The kind of the first action in the list whose kind is unrecognized,
if any. -/
def firstUnknownKind : List RawAction → Option String
  | [] => Option.none
  | a :: rest =>
    if isKnownKind a.type then firstUnknownKind rest else some a.type

/-- Construction of one typed action from its raw mapping, mirroring the
match in `JiraTemplate.__post_init__` plus the required constructor
arguments of each dataclass (a missing required argument is a
`TypeError`). -/
def mkOne (a : RawAction) : Except PyError ActionObj :=
  if a.type == "create-ticket" then
    Except.ok ⟨a.type, a.fields, a.object_id, a.reuse_data, "", "", ""⟩
  else if a.type == "update-ticket" then
    match a.reference_id with
    | some r => Except.ok ⟨a.type, a.fields, a.object_id, a.reuse_data, r, "", ""⟩
    | Option.none =>
      Except.error (PyError.typeError "missing required argument reference_id")
  else if a.type == "link-issues" then
    Except.ok ⟨a.type, a.fields, a.object_id, a.reuse_data, "", "", ""⟩
  else if a.type == "transition" then
    match a.reference_id, a.transition, a.comment with
    | some r, some t, some c =>
      Except.ok ⟨a.type, a.fields, a.object_id, a.reuse_data, r, t, c⟩
    | _, _, _ =>
      Except.error (PyError.typeError "missing required argument")
  else
    Except.error (PyError.exc (unknownKindMsg a.type))

/-- The `for action in actions` loop of `JiraTemplate.__post_init__`:
construct the typed actions in order, aborting on the first failure. -/
def mkActions : List RawAction → Except PyError (List ActionObj)
  | [] => Except.ok []
  | a :: rest => do
    let x ← mkOne a
    let xs ← mkActions rest
    Except.ok (x :: xs)

/-- `JiraTemplate(**template)`: build the optional trigger and the typed
action list. -/
def mkJiraTemplate (raw : RawTemplate) : Except PyError JiraTemplate := do
  let acts ← mkActions raw.actions
  Except.ok ⟨raw.trigger.map (fun t => ⟨t.object_id, t.jql⟩), acts⟩

/-- The identifiers gathered by `validate_uniqueness_of_object_ids`: the
trigger id unconditionally when a trigger exists, and each action id that
is truthy (present and non-empty). -/
def collectObjectIds (tmpl : JiraTemplate) : List String :=
  (match tmpl.jira_search with
   | some t => [t.object_id]
   | Option.none => []) ++
  tmpl.jira_actions.filterMap (fun a =>
    match a.object_id with
    | some s => if s == "" then Option.none else some s
    | Option.none => Option.none)

/-- Occurrence count of a string in a list. -/
def occ (x : String) : List String → Nat
  | [] => 0
  | y :: rest => (if y == x then 1 else 0) + occ x rest

/-- The size of `set(xs)`: the number of distinct elements. -/
def numDistinct : List String → Nat
  | [] => 0
  | x :: rest => if rest.contains x then numDistinct rest else numDistinct rest + 1

/-- Python `max(xs, key=xs.count)`: the first element of maximal
occurrence count (Python max keeps the earlier element on ties). -/
def pyMaxByCount (xs : List String) : String :=
  match xs with
  | [] => ""
  | x :: rest => rest.foldl (fun best y => if occ best xs < occ y xs then y else best) x

/-- The message of the duplicate-object-id exception. -/
def dupIdMsg (d : String) : String :=
  "The validation of the property \x27object_id\x27 has failed. The object_id with the value \x27" ++
    (d ++ "\x27 has been defined as the \x27object_id\x27 for 2 or more objects!")

/-- `joft.base.validate_uniqueness_of_object_ids`: collect the ids and
raise, naming the most frequent id, when they are not pairwise
distinct. -/
def validate_uniqueness_of_object_ids (tmpl : JiraTemplate) : Option PyError :=
  let ids := collectObjectIds tmpl
  if ids.length == numDistinct ids then Option.none
  else some (PyError.exc (dupIdMsg (pyMaxByCount ids)))

/-- `joft.base.load_and_validate_template` after YAML parsing: construct
the template object, then validate id uniqueness. -/
def load_and_validate (raw : RawTemplate) : Except PyError JiraTemplate := do
  let tmpl ← mkJiraTemplate raw
  match validate_uniqueness_of_object_ids tmpl with
  | some e => Except.error e
  | Option.none => Except.ok tmpl

/-- A remote call issued to the Jira service, recorded in order. -/
inductive RemoteCall where
  | searchIssues (jql : String)
  | createIssue (fields : PyDict)
  | updateIssue (key : String) (fields : PyDict)
  | createLink (linkType inward outward : PyVal)
  | transitionIssue (key : String) (transition : String) (fields : PyDict)
      (comment : String)

/-- The pre-authenticated Jira session, as a deterministic oracle for the
calls whose results the core consumes. -/
structure JIRA where
  create_issue : PyDict → IssueHandle
  search_issues : String → List IssueHandle

/-- The result of running one action or a sequence of them: the reference
pool after all in-place mutations, the remote calls issued, and the
exception that aborted execution, if any. -/
abbrev ActionResult : Type := Pool × List RemoteCall × Option PyError

/-- Python truthiness of the optional `object_id`. -/
def truthyId (o : Option String) : Option String :=
  match o with
  | some s => if s == "" then Option.none else some s
  | Option.none => Option.none

/-- The message raised by `update_ticket` and `transition_issue` when the
`reference_id` of the action is not a pool key. -/
def invalidRefMsg (rid : String) : String :=
  "Invalid reference id \x27" ++
    (rid ++ "\x27! You are referencing something that does not exist!")

/-- `joft.actions.create_ticket`: resolve the declarations, substitute the
payload, read `fields["issuetype"]["name"]` for the debug log, create the
issue remotely and bind the result when an output id is declared. -/
def create_ticket (a : ActionObj) (sess : JIRA) (pool : Pool) : ActionResult :=
  match update_reference_pool a.reference_data pool with
  | (pool2, some e) => (pool2, [], some e)
  | (pool2, Option.none) =>
    match apply_reference_pool_to_payload pool2 a.fields with
    | Except.error e => (pool2, [], some e)
    | Except.ok flds =>
      match (pyGetItem (PyVal.dict flds) "issuetype").bind
          (fun it => pyGetItem it "name") with
      | Except.error e => (pool2, [], some e)
      | Except.ok _ =>
        let issue := sess.create_issue flds
        let pool3 :=
          match truthyId a.object_id with
          | some oid => dictSet pool2 oid (PoolVal.issue issue)
          | Option.none => pool2
        (pool3, [RemoteCall.createIssue flds], Option.none)

/-- `joft.actions.update_ticket`: resolve, substitute, then check that the
input `reference_id` is bound; only afterwards issue the remote update and
bind the output id.  The returned pool reflects all mutations made before
a raise. -/
def update_ticket (a : ActionObj) (sess : JIRA) (pool : Pool) : ActionResult :=
  match update_reference_pool a.reference_data pool with
  | (pool2, some e) => (pool2, [], some e)
  | (pool2, Option.none) =>
    match apply_reference_pool_to_payload pool2 a.fields with
    | Except.error e => (pool2, [], some e)
    | Except.ok flds =>
      if dictMem pool2 a.reference_id then
        match dictGet pool2 a.reference_id with
        | some (PoolVal.issue h) =>
          let pool3 :=
            match truthyId a.object_id with
            | some oid => dictSet pool2 oid (PoolVal.issue h)
            | Option.none => pool2
          (pool3, [RemoteCall.updateIssue h.key flds], Option.none)
        | _ => (pool2, [], some (PyError.attributeError "key"))
      else
        (pool2, [], some (PyError.exc (invalidRefMsg a.reference_id)))

/-- `joft.actions.link_issues`: resolve, substitute, read the three
payload entries used by the log lines and the call, then create the link.
No output binding is made even when an `object_id` is declared. -/
def link_issues (a : ActionObj) (sess : JIRA) (pool : Pool) : ActionResult :=
  match update_reference_pool a.reference_data pool with
  | (pool2, some e) => (pool2, [], some e)
  | (pool2, Option.none) =>
    match apply_reference_pool_to_payload pool2 a.fields with
    | Except.error e => (pool2, [], some e)
    | Except.ok flds =>
      match pyGetItem (PyVal.dict flds) "type",
          pyGetItem (PyVal.dict flds) "inward_issue",
          pyGetItem (PyVal.dict flds) "outward_issue" with
      | Except.ok t, Except.ok i, Except.ok o =>
        (pool2, [RemoteCall.createLink t i o], Option.none)
      | Except.error e, _, _ => (pool2, [], some e)
      | _, Except.error e, _ => (pool2, [], some e)
      | _, _, Except.error e => (pool2, [], some e)

/-- `joft.actions.transition_issue`: resolve, substitute, check the input
`reference_id` after both, then issue the transition and bind the output
id. -/
def transition_issue (a : ActionObj) (sess : JIRA) (pool : Pool) :
    ActionResult :=
  match update_reference_pool a.reference_data pool with
  | (pool2, some e) => (pool2, [], some e)
  | (pool2, Option.none) =>
    match apply_reference_pool_to_payload pool2 a.fields with
    | Except.error e => (pool2, [], some e)
    | Except.ok flds =>
      if dictMem pool2 a.reference_id then
        match dictGet pool2 a.reference_id with
        | some (PoolVal.issue h) =>
          let pool3 :=
            match truthyId a.object_id with
            | some oid => dictSet pool2 oid (PoolVal.issue h)
            | Option.none => pool2
          (pool3, [RemoteCall.transitionIssue h.key a.transition flds a.comment],
            Option.none)
        | _ => (pool2, [], some (PyError.attributeError "key"))
      else
        (pool2, [], some (PyError.exc (invalidRefMsg a.reference_id)))

/-- The `for action in jira_template.jira_actions` loop of
`joft.base.execute_actions`: dispatch on the action type string; an
unmatched type is logged as a warning and skipped.  The first raise aborts
the sequence. -/
def run_actions (sess : JIRA) (pool : Pool) : List ActionObj → ActionResult
  | [] => (pool, [], Option.none)
  | a :: rest =>
    let step : ActionResult :=
      if a.type == "create-ticket" then create_ticket a sess pool
      else if a.type == "update-ticket" then update_ticket a sess pool
      else if a.type == "link-issues" then link_issues a sess pool
      else if a.type == "transition" then transition_issue a sess pool
      else (pool, [], Option.none)
    match step with
    | (p, calls, some e) => (p, calls, some e)
    | (p, calls, Option.none) =>
      let (p2, calls2, e2) := run_actions sess p rest
      (p2, calls ++ calls2, e2)

/-- `joft.base.execute_actions` on an explicitly passed pool. -/
def execute_actions (tmpl : JiraTemplate) (sess : JIRA) (pool : Pool) :
    ActionResult :=
  run_actions sess pool tmpl.jira_actions

/-- The `for ticket in trigger_result` loop of
`execute_actions_per_trigger_ticket`: bind the trigger id in the current
pool, run the actions, then rebind the loop variable to a fresh empty
dict. -/
def trigger_loop (tmpl : JiraTemplate) (sess : JIRA) (objId : String)
    (pool : Pool) : List IssueHandle → List RemoteCall × Option PyError
  | [] => ([], Option.none)
  | t :: rest =>
    let pool1 := dictSet pool objId (PoolVal.issue t)
    match execute_actions tmpl sess pool1 with
    | (_, calls, some e) => (calls, some e)
    | (_, calls, Option.none) =>
      let (calls2, e2) := trigger_loop tmpl sess objId [] rest
      (calls ++ calls2, e2)

/-- `joft.base.execute_actions_per_trigger_ticket`. -/
def execute_actions_per_trigger_ticket (tickets : List IssueHandle)
    (tmpl : JiraTemplate) (sess : JIRA) : List RemoteCall × Option PyError :=
  match tmpl.jira_search with
  | Option.none => ([], some (PyError.valueError "No search query defined in template"))
  | some trig => trigger_loop tmpl sess trig.object_id [] tickets

/-- `joft.base.execute_template`, with the process-level state of the
mutable default argument of `execute_actions` made explicit: `defaultPool`
is the dictionary created once at function definition time and shared by
every call that omits the pool parameter.  The returned pool is that
shared dictionary after the run.  The triggered path passes explicit pools
and leaves the default untouched. -/
def execute_template_model (raw : RawTemplate) (sess : JIRA)
    (defaultPool : Pool) : ActionResult :=
  match load_and_validate raw with
  | Except.error e => (defaultPool, [], some e)
  | Except.ok tmpl =>
    match tmpl.jira_search with
    | some trig =>
      let found := sess.search_issues trig.jql
      if found.isEmpty then
        (defaultPool, [RemoteCall.searchIssues trig.jql], Option.none)
      else
        let (calls, e) := execute_actions_per_trigger_ticket found tmpl sess
        (defaultPool, RemoteCall.searchIssues trig.jql :: calls, e)
    | Option.none =>
      execute_actions tmpl sess defaultPool

/-- Whether the value is a Python string. -/
def isStrVal : PyVal → Bool
  | PyVal.str _ => true
  | _ => false

/-- The payload-shape condition under which one non-scalar field survives
the substitution engine without a raise, as dictated by the source: the
four name-dispatched fields must be mappings holding string sub-values,
`labels` a string or a list of strings, `components` a string or a list of
non-string records, and every other field a plain string.  First, the
shape condition for the dict value of the `project` field. -/
def wfProjectDict (xs : List (String × PyVal)) : Bool :=
  match dictGet xs "key" with
  | some u => isStrVal u
  | Option.none =>
    match dictGet xs "name" with
    | some u => isStrVal u
    | Option.none => true

/-- Shape condition for the dict value of a name-dispatched field: a
string under the `name` key. -/
def wfNameDict (xs : List (String × PyVal)) : Bool :=
  match dictGet xs "name" with
  | some u => isStrVal u
  | Option.none => false

def wfCore (f : String) (v : PyVal) : Bool :=
  if f == "project" then
    match v with
    | PyVal.dict xs => wfProjectDict xs
    | _ => false
  else if f == "issuetype" || f == "assignee" || f == "priority" then
    match v with
    | PyVal.dict xs => wfNameDict xs
    | _ => false
  else if f == "labels" then
    match v with
    | PyVal.str _ => true
    | PyVal.list xs => xs.all isStrVal
    | _ => false
  else if f == "components" then
    match v with
    | PyVal.str _ => true
    | PyVal.list xs => xs.all (fun x => !(isStrVal x))
    | _ => false
  else isStrVal v

/-- A well-shaped payload field: a skipped scalar or a `wfCore` value. -/
def wfFieldVal (f : String) (v : PyVal) : Bool := isScalar v || wfCore f v

/-- A pool entry that cannot break substitution: list values must hold no
string elements (the record lists built by the resolver have this
shape). -/
def poolEntryWF : PoolVal → Bool
  | PoolVal.val (PyVal.list xs) => xs.all (fun x => !(isStrVal x))
  | _ => true

/-- All pool entries are well shaped. -/
def poolWF (pool : Pool) : Bool := pool.all (fun p => poolEntryWF p.2)

/-- The field names receiving special treatment inside the string-entry
dispatch of the substitution engine. -/
def isSpecialField (f : String) : Bool :=
  f == "project" || f == "issuetype" || f == "assignee" || f == "priority" ||
    f == "labels" || f == "components"

theorem beq_symm_false {k k2 : String} (h : (k2 == k) = false) :
    (k == k2) = false := by
  cases hq : (k == k2) with
  | false => rfl
  | true =>
    have hk : k = k2 := by simpa using hq
    subst hk
    simp at h

theorem dictGet_cons_pos {α : Type} (p : String × α) (ps : List (String × α))
    (k : String) (h : (p.1 == k) = true) : dictGet (p :: ps) k = some p.2 := by
  unfold dictGet
  rw [List.find?_cons_of_pos ps (by simpa using h)]
  rfl

theorem dictGet_cons_neg {α : Type} (p : String × α) (ps : List (String × α))
    (k : String) (h : (p.1 == k) = false) : dictGet (p :: ps) k = dictGet ps k := by
  unfold dictGet
  rw [List.find?_cons_of_neg ps (by simp [h])]

theorem find?_map_overwrite_ne {α : Type} (xs : List (String × α))
    (k k2 : String) (v : α) (hne : (k2 == k) = false) :
    List.find? (fun p => p.1 == k2)
        (xs.map (fun p => if p.1 == k then (k, v) else p)) =
      List.find? (fun p => p.1 == k2) xs := by
  induction xs with
  | nil => rfl
  | cons q qs ih =>
    by_cases hq : (q.1 == k) = true
    · have hqk : q.1 = k := by simpa using hq
      have h1 : ((k, v).1 == k2) = false := beq_symm_false hne
      have h2 : (q.1 == k2) = false := by rw [hqk]; exact beq_symm_false hne
      simp only [List.map_cons, hq, if_true]
      rw [List.find?_cons_of_neg _ (by simp [h1]),
        List.find?_cons_of_neg qs (by simp [h2])]
      exact ih
    · have hq' : (q.1 == k) = false := by
        cases hb : (q.1 == k) with
        | true => exact absurd hb hq
        | false => rfl
      simp only [List.map_cons, hq', Bool.false_eq_true, if_false]
      by_cases h2 : (q.1 == k2) = true
      · rw [List.find?_cons_of_pos _ (by simpa using h2),
          List.find?_cons_of_pos qs (by simpa using h2)]
      · have h2' : (q.1 == k2) = false := by
          cases hb : (q.1 == k2) with
          | true => exact absurd hb h2
          | false => rfl
        rw [List.find?_cons_of_neg _ (by simp [h2']),
          List.find?_cons_of_neg qs (by simp [h2'])]
        exact ih

theorem dictGet_map_overwrite {α : Type} (xs : List (String × α)) (k : String)
    (v : α) (hm : dictMem xs k = true) :
    dictGet (xs.map (fun p => if p.1 == k then (k, v) else p)) k = some v := by
  induction xs with
  | nil => simp [dictMem, dictGet] at hm
  | cons p ps ih =>
    by_cases hp : (p.1 == k) = true
    · simp only [List.map_cons, hp, if_true]
      exact dictGet_cons_pos (k, v) _ k (by simp)
    · have hp' : (p.1 == k) = false := by
        cases hb : (p.1 == k) with
        | true => exact absurd hb hp
        | false => rfl
      have hm' : dictMem ps k = true := by
        rw [dictMem, dictGet_cons_neg p ps k hp'] at hm
        exact hm
      simp only [List.map_cons, hp', Bool.false_eq_true, if_false]
      rw [dictGet_cons_neg (p.1, p.2) _ k (by simpa using hp')]
      exact ih hm'

theorem find?_eq_none_of_dictGet_none {α : Type} (xs : List (String × α))
    (k : String) (h : dictGet xs k = Option.none) :
    List.find? (fun p => p.1 == k) xs = Option.none := by
  unfold dictGet at h
  cases hf : List.find? (fun p => p.1 == k) xs with
  | none => rfl
  | some u => rw [hf] at h; simp at h

theorem dictGet_dictSet_self {α : Type} (xs : List (String × α)) (k : String)
    (v : α) : dictGet (dictSet xs k v) k = some v := by
  unfold dictSet
  by_cases hm : dictMem xs k = true
  · simp only [hm, if_true]
    exact dictGet_map_overwrite xs k v hm
  · have hm' : dictMem xs k = false := by
      cases hb : dictMem xs k with
      | true => exact absurd hb hm
      | false => rfl
    have hnone : dictGet xs k = Option.none := by
      cases hg : dictGet xs k with
      | none => rfl
      | some u => rw [dictMem, hg] at hm'; simp at hm'
    simp only [hm', Bool.false_eq_true, if_false]
    unfold dictGet
    rw [List.find?_append, find?_eq_none_of_dictGet_none xs k hnone]
    have hf : List.find? (fun p : String × α => p.1 == k) [(k, v)] = some (k, v) :=
      List.find?_cons_of_pos [] (by simp)
    rw [hf]
    rfl

theorem dictGet_dictSet_ne {α : Type} (xs : List (String × α)) (k k2 : String)
    (v : α) (hne : (k2 == k) = false) :
    dictGet (dictSet xs k v) k2 = dictGet xs k2 := by
  unfold dictSet
  by_cases hm : dictMem xs k = true
  · simp only [hm, if_true]
    unfold dictGet
    rw [find?_map_overwrite_ne xs k k2 v hne]
  · have hm' : dictMem xs k = false := by
      cases hb : dictMem xs k with
      | true => exact absurd hb hm
      | false => rfl
    simp only [hm', Bool.false_eq_true, if_false]
    unfold dictGet
    rw [List.find?_append]
    rw [List.find?_cons_of_neg _ (by simp [beq_symm_false hne])]
    cases List.find? (fun p => p.1 == k2) xs <;> rfl

theorem anyStrEq_false (xs : List PyVal) (needle : String)
    (h : xs.all (fun x => !(isStrVal x)) = true) :
    (xs.any (fun x =>
      match x with
      | PyVal.str t => t == needle
      | _ => false)) = false := by
  induction xs with
  | nil => rfl
  | cons x rest ih =>
    simp only [List.all_cons, Bool.and_eq_true] at h
    simp only [List.any_cons, Bool.or_eq_false_iff]
    constructor
    · cases x with
      | str t => simp [isStrVal] at h
      | int n => rfl
      | float => rfl
      | bool b => rfl
      | none => rfl
      | list l => rfl
      | dict l => rfl
    · exact ih h.2

theorem mapReplaceAll_all_str (ref s : String) (xs : List PyVal)
    (h : xs.all isStrVal = true) :
    ∃ ys, mapReplaceAll ref s xs = Except.ok ys ∧ ys.all isStrVal = true := by
  induction xs with
  | nil => exact ⟨[], rfl, rfl⟩
  | cons x rest ih =>
    simp only [List.all_cons, Bool.and_eq_true] at h
    obtain ⟨ys, hys, hall⟩ := ih h.2
    cases x with
    | str t =>
      refine ⟨PyVal.str (replace_ref t ref s) :: ys, ?_, ?_⟩
      · simp only [mapReplaceAll, pyValReplaceRef, hys]
        rfl
      · simp [List.all_cons, isStrVal, hall]
    | int n => simp [isStrVal] at h
    | float => simp [isStrVal] at h
    | bool b => simp [isStrVal] at h
    | none => simp [isStrVal] at h
    | list l => simp [isStrVal] at h
    | dict l => simp [isStrVal] at h

theorem chars_all_str (s : String) :
    (s.data.map (fun c => PyVal.str (String.singleton c))).all isStrVal = true := by
  induction s.data with
  | nil => rfl
  | cons c cs ih =>
    simp only [List.map_cons, List.all_cons, ih]
    rfl

theorem except_bind_ok {α β : Type} (a : α) (g : α → Except PyError β) :
    (Except.ok a >>= g) = g a := rfl

theorem except_bind_err {α β : Type} (e : PyError) (g : α → Except PyError β) :
    ((Except.error e : Except PyError α) >>= g) = Except.error e := rfl

theorem wfCore_eval_components (v : PyVal) :
    wfCore "components" v =
      (match v with
       | PyVal.str _ => true
       | PyVal.list xs => xs.all (fun x => !(isStrVal x))
       | _ => false) := rfl

theorem wfCore_eval_project_dict (xs : List (String × PyVal)) :
    wfCore "project" (PyVal.dict xs) = wfProjectDict xs := rfl

theorem wfCore_eval_name_dispatch (f : String) (v : PyVal)
    (hp : (f == "project") = false)
    (hq : (f == "issuetype" || f == "assignee" || f == "priority") = true) :
    wfCore f v =
      (match v with
       | PyVal.dict xs => wfNameDict xs
       | _ => false) := by
  unfold wfCore
  simp only [hp, Bool.false_eq_true, if_false, hq, if_true]

theorem wfCore_eval_labels (v : PyVal) :
    wfCore "labels" v =
      (match v with
       | PyVal.str _ => true
       | PyVal.list xs => xs.all isStrVal
       | _ => false) := rfl

theorem wfCore_eval_generic (f : String) (v : PyVal)
    (hp : (f == "project") = false)
    (hq : (f == "issuetype" || f == "assignee" || f == "priority") = false)
    (hl : (f == "labels") = false)
    (hc : (f == "components") = false) :
    wfCore f v = isStrVal v := by
  unfold wfCore
  simp only [hp, hq, hl, hc, Bool.false_eq_true, if_false]

theorem strDispatch_eval_generic (f : String) (fv : PyVal) (ref s : String)
    (hp : (f == "project") = false)
    (hq : (f == "issuetype" || f == "assignee" || f == "priority") = false)
    (hl : (f == "labels") = false) :
    strDispatch f fv ref s = (do
      let b ← pyContains fv ref
      if b then pyValReplaceRef fv ref s else Except.ok fv) := by
  unfold strDispatch
  simp only [hp, hq, hl, Bool.false_eq_true, if_false]

theorem wfProjectDict_key_some (xs : List (String × PyVal)) (u : PyVal)
    (h : dictGet xs "key" = some u) : wfProjectDict xs = isStrVal u := by
  unfold wfProjectDict
  rw [h]

theorem wfProjectDict_key_none (xs : List (String × PyVal))
    (h : dictGet xs "key" = Option.none) :
    wfProjectDict xs =
      (match dictGet xs "name" with
       | some u => isStrVal u
       | Option.none => true) := by
  unfold wfProjectDict
  rw [h]

theorem wfNameDict_some (xs : List (String × PyVal)) (u : PyVal)
    (h : dictGet xs "name" = some u) : wfNameDict xs = isStrVal u := by
  unfold wfNameDict
  rw [h]

theorem pyGetItem_dict_some (xs : List (String × PyVal)) (k : String)
    (u : PyVal) (h : dictGet xs k = some u) :
    pyGetItem (PyVal.dict xs) k = Except.ok u := by
  show (match dictGet xs k with
        | some v => Except.ok v
        | Option.none => Except.error (PyError.keyError k)) = Except.ok u
  rw [h]

theorem dictMem_of_get_some {α : Type} (xs : List (String × α)) (k : String)
    (u : α) (h : dictGet xs k = some u) : dictMem xs k = true := by
  unfold dictMem
  rw [h]
  rfl

theorem dictMem_of_get_none {α : Type} (xs : List (String × α)) (k : String)
    (h : dictGet xs k = Option.none) : dictMem xs k = false := by
  unfold dictMem
  rw [h]
  rfl

theorem stepRefEntry_wf (f : String) (v : PyVal) (ref : String) (pv : PoolVal)
    (hpv : poolEntryWF pv = true) (hv : wfCore f v = true) :
    ∃ v2, stepRefEntry f v ref pv = Except.ok v2 ∧ wfCore f v2 = true := by
  cases pv with
  | issue hi => exact ⟨v, rfl, hv⟩
  | val w =>
    cases w with
    | int n => exact ⟨v, rfl, hv⟩
    | float => exact ⟨v, rfl, hv⟩
    | bool b => exact ⟨v, rfl, hv⟩
    | none => exact ⟨v, rfl, hv⟩
    | dict d => exact ⟨v, rfl, hv⟩
    | list l =>
      by_cases hf : (f == "components") = true
      · have hfe : f = "components" := by simpa using hf
        subst hfe
        have hl : l.all (fun x => !(isStrVal x)) = true := by
          simpa [poolEntryWF] using hpv
        rw [wfCore_eval_components] at hv
        cases v with
        | str s0 =>
          cases hb : strContainsB s0 (refToken ref) with
          | true =>
            refine ⟨PyVal.list l, ?_, ?_⟩
            · simp [stepRefEntry, pyContains, hb, except_bind_ok]
            · rw [wfCore_eval_components]
              exact hl
          | false =>
            refine ⟨PyVal.str s0, ?_, ?_⟩
            · simp [stepRefEntry, pyContains, hb, except_bind_ok]
            · rw [wfCore_eval_components]
        | list xs =>
          refine ⟨PyVal.list xs, ?_, ?_⟩
          · have hany := anyStrEq_false xs (refToken ref) hv
            simp [stepRefEntry, pyContains, hany, except_bind_ok]
          · rw [wfCore_eval_components]
            exact hv
        | int n => exact Bool.noConfusion hv
        | float => exact Bool.noConfusion hv
        | bool b => exact Bool.noConfusion hv
        | none => exact Bool.noConfusion hv
        | dict d => exact Bool.noConfusion hv
      · have hf' : (f == "components") = false := by
          cases hb : (f == "components") with
          | true => exact absurd hb hf
          | false => rfl
        refine ⟨v, ?_, hv⟩
        show (if f == "components" then do
            let b ← pyContains v (refToken ref)
            if b then Except.ok (PyVal.list l) else Except.ok v
          else Except.ok v) = Except.ok v
        rw [hf']
        simp
    | str s =>
      show ∃ v2, strDispatch f v ref s = Except.ok v2 ∧ wfCore f v2 = true
      by_cases hp : (f == "project") = true
      · have hfe : f = "project" := by simpa using hp
        subst hfe
        cases v with
        | dict xs =>
          rw [wfCore_eval_project_dict] at hv
          cases hkey : dictGet xs "key" with
          | some u =>
            have hu : isStrVal u = true := by
              rw [wfProjectDict_key_some xs u hkey] at hv
              exact hv
            cases u with
            | str t =>
              have hm : dictMem xs "key" = true := dictMem_of_get_some xs "key" _ hkey
              refine ⟨PyVal.dict (dictSet xs "key" (PyVal.str (replace_ref t ref s))),
                ?_, ?_⟩
              · simp [strDispatch, pyContains, hm,
                  pyGetItem_dict_some xs "key" (PyVal.str t) hkey,
                  pyValReplaceRef, pySetItem, except_bind_ok]
              · rw [wfCore_eval_project_dict,
                  wfProjectDict_key_some _ _ (dictGet_dictSet_self xs "key" _)]
                rfl
            | int n => exact Bool.noConfusion hu
            | float => exact Bool.noConfusion hu
            | bool b => exact Bool.noConfusion hu
            | none => exact Bool.noConfusion hu
            | list l2 => exact Bool.noConfusion hu
            | dict d2 => exact Bool.noConfusion hu
          | none =>
            have hm : dictMem xs "key" = false := dictMem_of_get_none xs "key" hkey
            rw [wfProjectDict_key_none xs hkey] at hv
            cases hname : dictGet xs "name" with
            | some u =>
              have hu : isStrVal u = true := by
                rw [hname] at hv
                exact hv
              cases u with
              | str t =>
                have hm2 : dictMem xs "name" = true :=
                  dictMem_of_get_some xs "name" _ hname
                refine ⟨PyVal.dict (dictSet xs "name" (PyVal.str (replace_ref t ref s))),
                  ?_, ?_⟩
                · simp [strDispatch, pyContains, hm, hm2,
                    pyGetItem_dict_some xs "name" (PyVal.str t) hname,
                    pyValReplaceRef, pySetItem, except_bind_ok]
                · rw [wfCore_eval_project_dict,
                    wfProjectDict_key_none _
                      (by rw [dictGet_dictSet_ne xs "name" "key" _ (by rfl)]
                          exact hkey),
                    dictGet_dictSet_self xs "name" _]
                  rfl
              | int n => exact Bool.noConfusion hu
              | float => exact Bool.noConfusion hu
              | bool b => exact Bool.noConfusion hu
              | none => exact Bool.noConfusion hu
              | list l2 => exact Bool.noConfusion hu
              | dict d2 => exact Bool.noConfusion hu
            | none =>
              have hm2 : dictMem xs "name" = false :=
                dictMem_of_get_none xs "name" hname
              refine ⟨PyVal.dict xs, ?_, ?_⟩
              · simp [strDispatch, pyContains, hm, hm2, except_bind_ok]
              · rw [wfCore_eval_project_dict, wfProjectDict_key_none xs hkey, hname]
        | int n => exact Bool.noConfusion hv
        | float => exact Bool.noConfusion hv
        | bool b => exact Bool.noConfusion hv
        | none => exact Bool.noConfusion hv
        | str s0 => exact Bool.noConfusion hv
        | list l2 => exact Bool.noConfusion hv
      · have hp' : (f == "project") = false := by
          cases hb : (f == "project") with
          | true => exact absurd hb hp
          | false => rfl
        by_cases hq : (f == "issuetype" || f == "assignee" || f == "priority") = true
        · rw [wfCore_eval_name_dispatch f v hp' hq] at hv
          have hd : strDispatch f v ref s = (do
              let u ← pyGetItem v "name"
              let u2 ← pyValReplaceRef u ref s
              pySetItem v "name" u2) := by
            unfold strDispatch
            simp only [hp', Bool.false_eq_true, if_false, hq, if_true]
          cases v with
          | dict xs =>
            have hv2 : wfNameDict xs = true := hv
            cases hname : dictGet xs "name" with
            | some u =>
              have hu : isStrVal u = true := by
                rw [wfNameDict_some xs u hname] at hv2
                exact hv2
              cases u with
              | str t =>
                refine ⟨PyVal.dict (dictSet xs "name" (PyVal.str (replace_ref t ref s))),
                  ?_, ?_⟩
                · rw [hd]
                  simp [pyGetItem_dict_some xs "name" (PyVal.str t) hname,
                    pyValReplaceRef, pySetItem, except_bind_ok]
                · rw [wfCore_eval_name_dispatch f _ hp' hq]
                  show wfNameDict (dictSet xs "name" (PyVal.str (replace_ref t ref s))) = true
                  rw [wfNameDict_some _ _ (dictGet_dictSet_self xs "name" _)]
                  rfl
              | int n => exact Bool.noConfusion hu
              | float => exact Bool.noConfusion hu
              | bool b => exact Bool.noConfusion hu
              | none => exact Bool.noConfusion hu
              | list l2 => exact Bool.noConfusion hu
              | dict d2 => exact Bool.noConfusion hu
            | none =>
              have : wfNameDict xs = false := by
                unfold wfNameDict
                rw [hname]
              rw [this] at hv2
              exact Bool.noConfusion hv2
          | int n => exact Bool.noConfusion hv
          | float => exact Bool.noConfusion hv
          | bool b => exact Bool.noConfusion hv
          | none => exact Bool.noConfusion hv
          | str s0 => exact Bool.noConfusion hv
          | list l2 => exact Bool.noConfusion hv
        · have hq' : (f == "issuetype" || f == "assignee" || f == "priority") = false := by
            cases hb : (f == "issuetype" || f == "assignee" || f == "priority") with
            | true => exact absurd hb hq
            | false => rfl
          by_cases hl : (f == "labels") = true
          · have hfe : f = "labels" := by simpa using hl
            subst hfe
            rw [wfCore_eval_labels] at hv
            have hd : strDispatch "labels" v ref s = (do
                let xs ← pyIter v
                let ys ← mapReplaceAll ref s xs
                Except.ok (PyVal.list ys)) := rfl
            cases v with
            | str s0 =>
              obtain ⟨ys, hys, hall⟩ :=
                mapReplaceAll_all_str ref s _ (chars_all_str s0)
              refine ⟨PyVal.list ys, ?_, ?_⟩
              · rw [hd]
                show (do
                    let xs ← Except.ok
                      (s0.data.map (fun c => PyVal.str (String.singleton c)))
                    let ys ← mapReplaceAll ref s xs
                    Except.ok (PyVal.list ys) : Except PyError PyVal) = _
                rw [except_bind_ok, hys, except_bind_ok]
              · rw [wfCore_eval_labels]
                exact hall
            | list xs =>
              obtain ⟨ys, hys, hall⟩ := mapReplaceAll_all_str ref s xs hv
              refine ⟨PyVal.list ys, ?_, ?_⟩
              · rw [hd]
                show (do
                    let zs ← Except.ok xs
                    let ys ← mapReplaceAll ref s zs
                    Except.ok (PyVal.list ys) : Except PyError PyVal) = _
                rw [except_bind_ok, hys, except_bind_ok]
              · rw [wfCore_eval_labels]
                exact hall
            | int n => exact Bool.noConfusion hv
            | float => exact Bool.noConfusion hv
            | bool b => exact Bool.noConfusion hv
            | none => exact Bool.noConfusion hv
            | dict d2 => exact Bool.noConfusion hv
          · have hl' : (f == "labels") = false := by
              cases hb : (f == "labels") with
              | true => exact absurd hb hl
              | false => rfl
            have hd := strDispatch_eval_generic f v ref s hp' hq' hl'
            by_cases hc : (f == "components") = true
            · have hfe : f = "components" := by simpa using hc
              subst hfe
              rw [wfCore_eval_components] at hv
              cases v with
              | str t =>
                rw [hd]
                cases hb : strContainsB t ref with
                | true =>
                  refine ⟨PyVal.str (replace_ref t ref s), ?_, ?_⟩
                  · simp [pyContains, hb, pyValReplaceRef, except_bind_ok]
                  · rw [wfCore_eval_components]
                | false =>
                  refine ⟨PyVal.str t, ?_, ?_⟩
                  · simp [pyContains, hb, except_bind_ok]
                  · rw [wfCore_eval_components]
              | list xs =>
                rw [hd]
                have hany := anyStrEq_false xs ref hv
                refine ⟨PyVal.list xs, ?_, ?_⟩
                · simp [pyContains, hany, except_bind_ok]
                · rw [wfCore_eval_components]
                  exact hv
              | int n => exact Bool.noConfusion hv
              | float => exact Bool.noConfusion hv
              | bool b => exact Bool.noConfusion hv
              | none => exact Bool.noConfusion hv
              | dict d2 => exact Bool.noConfusion hv
            · have hc' : (f == "components") = false := by
                cases hb : (f == "components") with
                | true => exact absurd hb hc
                | false => rfl
              rw [wfCore_eval_generic f v hp' hq' hl' hc'] at hv
              cases v with
              | str t =>
                rw [hd]
                cases hb : strContainsB t ref with
                | true =>
                  refine ⟨PyVal.str (replace_ref t ref s), ?_, ?_⟩
                  · simp [pyContains, hb, pyValReplaceRef, except_bind_ok]
                  · rw [wfCore_eval_generic _ _ hp' hq' hl' hc']
                    rfl
                | false =>
                  refine ⟨PyVal.str t, ?_, ?_⟩
                  · simp [pyContains, hb, except_bind_ok]
                  · rw [wfCore_eval_generic _ _ hp' hq' hl' hc']
                    rfl
              | int n => exact Bool.noConfusion hv
              | float => exact Bool.noConfusion hv
              | bool b => exact Bool.noConfusion hv
              | none => exact Bool.noConfusion hv
              | list l2 => exact Bool.noConfusion hv
              | dict d2 => exact Bool.noConfusion hv

theorem applyPoolToField_wf (f : String) :
    ∀ pool : Pool, poolWF pool = true → ∀ v, wfCore f v = true →
    ∃ v2, applyPoolToField f v pool = Except.ok v2 ∧ wfCore f v2 = true := by
  intro pool
  induction pool with
  | nil => exact fun _ v hv => ⟨v, rfl, hv⟩
  | cons p rest ih =>
    intro hpool v hv
    obtain ⟨r, pv⟩ := p
    simp only [poolWF, List.all_cons, Bool.and_eq_true] at hpool
    obtain ⟨v2, hstep, hwf2⟩ := stepRefEntry_wf f v r pv hpool.1 hv
    obtain ⟨v3, happ, hwf3⟩ := ih hpool.2 v2 hwf2
    refine ⟨v3, ?_, hwf3⟩
    show (do
      let fv2 ← stepRefEntry f v r pv
      applyPoolToField f fv2 rest) = Except.ok v3
    rw [hstep, except_bind_ok, happ]

theorem apply_pool_wf (pool : Pool) (hpool : poolWF pool = true) :
    ∀ fields : PyDict,
    fields.all (fun p => wfFieldVal p.1 p.2) = true →
    ∃ out, apply_reference_pool_to_payload pool fields = Except.ok out := by
  intro fields
  induction fields with
  | nil => exact fun _ => ⟨[], rfl⟩
  | cons p rest ih =>
    intro hf
    obtain ⟨f, v⟩ := p
    simp only [List.all_cons, Bool.and_eq_true] at hf
    obtain ⟨tail, htail⟩ := ih hf.2
    cases hs : isScalar v with
    | true =>
      refine ⟨(f, v) :: tail, ?_⟩
      show (if isScalar v then do
          let tail2 ← apply_reference_pool_to_payload pool rest
          Except.ok ((f, v) :: tail2)
        else do
          let v2 ← applyPoolToField f v pool
          let tail2 ← apply_reference_pool_to_payload pool rest
          Except.ok ((f, v2) :: tail2)) = Except.ok ((f, v) :: tail)
      rw [hs]
      simp only [if_true]
      rw [htail, except_bind_ok]
    | false =>
      have hcore : wfCore f v = true := by
        have := hf.1
        rw [wfFieldVal, hs] at this
        simpa using this
      obtain ⟨v2, happ, _⟩ := applyPoolToField_wf f pool hpool v hcore
      refine ⟨(f, v2) :: tail, ?_⟩
      show (if isScalar v then do
          let tail2 ← apply_reference_pool_to_payload pool rest
          Except.ok ((f, v) :: tail2)
        else do
          let v2 ← applyPoolToField f v pool
          let tail2 ← apply_reference_pool_to_payload pool rest
          Except.ok ((f, v2) :: tail2)) = Except.ok ((f, v2) :: tail)
      rw [hs]
      simp only [Bool.false_eq_true, if_false]
      rw [happ, except_bind_ok, htail, except_bind_ok]

theorem applyPoolToField_verbatim (f s : String)
    (hsp : isSpecialField f = false) :
    ∀ pool : Pool, (∀ r pv, (r, pv) ∈ pool → strContainsB s r = false) →
    applyPoolToField f (PyVal.str s) pool = Except.ok (PyVal.str s) := by
  have hsp2 := hsp
  simp only [isSpecialField, Bool.or_eq_false_iff] at hsp2
  obtain ⟨⟨⟨⟨⟨hp, hq1⟩, hq2⟩, hq3⟩, hl⟩, hc⟩ := hsp2
  intro pool
  induction pool with
  | nil => exact fun _ => rfl
  | cons p rest ih =>
    intro hnone
    obtain ⟨r, pv⟩ := p
    have hr : strContainsB s r = false := hnone r pv (List.mem_cons_self _ _)
    have hrest : ∀ r2 pv2, (r2, pv2) ∈ rest → strContainsB s r2 = false :=
      fun r2 pv2 hm => hnone r2 pv2 (List.mem_cons_of_mem _ hm)
    have hstep : stepRefEntry f (PyVal.str s) r pv = Except.ok (PyVal.str s) := by
      cases pv with
      | issue hi => rfl
      | val w =>
        cases w with
        | list l =>
          show (if f == "components" then do
              let b ← pyContains (PyVal.str s) (refToken r)
              if b then Except.ok (PyVal.list l) else Except.ok (PyVal.str s)
            else Except.ok (PyVal.str s)) = Except.ok (PyVal.str s)
          rw [hc]
          simp
        | str t =>
          show strDispatch f (PyVal.str s) r t = Except.ok (PyVal.str s)
          rw [strDispatch_eval_generic f _ r t hp (by simp [hq1, hq2, hq3]) hl]
          show (do
            let b ← pyContains (PyVal.str s) r
            if b then pyValReplaceRef (PyVal.str s) r t
            else Except.ok (PyVal.str s)) = Except.ok (PyVal.str s)
          simp [pyContains, hr, except_bind_ok]
        | int n => rfl
        | float => rfl
        | bool b => rfl
        | none => rfl
        | dict d => rfl
    show (do
      let fv2 ← stepRefEntry f (PyVal.str s) r pv
      applyPoolToField f fv2 rest) = Except.ok (PyVal.str s)
    rw [hstep, except_bind_ok, ih hrest]

theorem occ_cons_le (y x : String) (xs : List String) :
    occ y xs ≤ occ y (x :: xs) := by
  show occ y xs ≤ (if x == y then 1 else 0) + occ y xs
  exact Nat.le_add_left _ _

theorem occ_pos_of_contains (x : String) (xs : List String)
    (h : xs.contains x = true) : 1 ≤ occ x xs := by
  induction xs with
  | nil => simp at h
  | cons y rest ih =>
    by_cases hy : (x == y) = true
    · have hxy : x = y := eq_of_beq hy
      subst hxy
      show 1 ≤ (if x == x then 1 else 0) + occ x rest
      simp
    · have hy' : (x == y) = false := by
        cases hb : (x == y) with
        | true => exact absurd hb hy
        | false => rfl
      have hrest : rest.contains x = true := by
        have : (y :: rest).contains x = rest.contains x := by
          show List.elem x (y :: rest) = List.elem x rest
          rw [List.elem_cons, hy']
        rw [this] at h
        exact h
      exact Nat.le_trans (ih hrest) (occ_cons_le x y rest)

theorem foldl_best_spec (xs : List String) :
    ∀ (rest : List String) (best : String), best ∈ xs → (∀ y ∈ rest, y ∈ xs) →
    ((rest.foldl (fun b y => if occ b xs < occ y xs then y else b) best) ∈ xs ∧
     occ best xs ≤
       occ (rest.foldl (fun b y => if occ b xs < occ y xs then y else b) best) xs ∧
     ∀ y ∈ rest,
       occ y xs ≤
         occ (rest.foldl (fun b y => if occ b xs < occ y xs then y else b) best) xs) := by
  intro rest
  induction rest with
  | nil =>
    intro best hbest _
    refine ⟨hbest, Nat.le_refl _, ?_⟩
    intro y hy
    simp at hy
  | cons y0 rest2 ih =>
    intro best hbest hsub
    have hy0 : y0 ∈ xs := hsub y0 (List.mem_cons_self _ _)
    have hsub2 : ∀ y ∈ rest2, y ∈ xs := fun y hy => hsub y (List.mem_cons_of_mem _ hy)
    simp only [List.foldl_cons]
    by_cases hlt : occ best xs < occ y0 xs
    · have hnew : (if occ best xs < occ y0 xs then y0 else best) = y0 := by
        rw [if_pos hlt]
      rw [hnew]
      obtain ⟨hmem, hle, hall⟩ := ih y0 hy0 hsub2
      refine ⟨hmem, Nat.le_trans (Nat.le_of_lt hlt) hle, ?_⟩
      intro y hy
      cases List.mem_cons.mp hy with
      | inl heq => subst heq; exact hle
      | inr hmem2 => exact hall y hmem2
    · have hnew : (if occ best xs < occ y0 xs then y0 else best) = best := by
        rw [if_neg hlt]
      rw [hnew]
      obtain ⟨hmem, hle, hall⟩ := ih best hbest hsub2
      refine ⟨hmem, hle, ?_⟩
      intro y hy
      cases List.mem_cons.mp hy with
      | inl heq =>
        subst heq
        exact Nat.le_trans (Nat.le_of_not_lt hlt) hle
      | inr hmem2 => exact hall y hmem2

theorem pyMaxByCount_spec (xs : List String) (hne : xs ≠ []) :
    pyMaxByCount xs ∈ xs ∧ ∀ y ∈ xs, occ y xs ≤ occ (pyMaxByCount xs) xs := by
  cases xs with
  | nil => exact absurd rfl hne
  | cons x rest =>
    have h := foldl_best_spec (x :: rest) rest x (List.mem_cons_self _ _)
      (fun y hy => List.mem_cons_of_mem _ hy)
    obtain ⟨hmem, hle, hall⟩ := h
    refine ⟨hmem, ?_⟩
    intro y hy
    cases List.mem_cons.mp hy with
    | inl heq => subst heq; exact hle
    | inr hmem2 => exact hall y hmem2

theorem exists_dup_of_length_ne (xs : List String)
    (h : xs.length ≠ numDistinct xs) : ∃ x, x ∈ xs ∧ 2 ≤ occ x xs := by
  induction xs with
  | nil => simp [numDistinct] at h
  | cons x rest ih =>
    cases hc : rest.contains x with
    | true =>
      refine ⟨x, List.mem_cons_self _ _, ?_⟩
      have h1 : 1 ≤ occ x rest := occ_pos_of_contains x rest hc
      show 2 ≤ (if x == x then 1 else 0) + occ x rest
      simp only [BEq.refl, if_true]
      omega
    | false =>
      have h2 : rest.length ≠ numDistinct rest := by
        intro heq
        apply h
        show rest.length + 1 = numDistinct (x :: rest)
        rw [numDistinct, hc]
        simp [heq]
      obtain ⟨y, hy, hocc⟩ := ih h2
      exact ⟨y, List.mem_cons_of_mem _ hy,
        Nat.le_trans hocc (occ_cons_le y x rest)⟩

/-- Whether the computation succeeded. -/
def isOkB {α : Type} : Except PyError α → Bool
  | Except.ok _ => true
  | Except.error _ => false

theorem mkActions_firstUnknown (k : String) :
    ∀ as : List RawAction,
    (∀ a ∈ as, isKnownKind a.type = true → isOkB (mkOne a) = true) →
    firstUnknownKind as = some k →
    mkActions as = Except.error (PyError.exc (unknownKindMsg k)) := by
  intro as
  induction as with
  | nil =>
    intro _ hk
    exact absurd hk (by simp [firstUnknownKind])
  | cons a rest ih =>
    intro hwf hk
    cases hkk : isKnownKind a.type with
    | true =>
      have hk2 : firstUnknownKind rest = some k := by
        rw [firstUnknownKind, hkk] at hk
        simpa using hk
      have hok := hwf a (List.mem_cons_self _ _) hkk
      obtain ⟨x, hx⟩ : ∃ x, mkOne a = Except.ok x := by
        cases hmk : mkOne a with
        | ok x => exact ⟨x, rfl⟩
        | error e =>
          rw [hmk] at hok
          exact Bool.noConfusion hok
      show (do
        let x ← mkOne a
        let xs ← mkActions rest
        Except.ok (x :: xs)) = Except.error (PyError.exc (unknownKindMsg k))
      rw [hx, except_bind_ok,
        ih (fun b hb hkb => hwf b (List.mem_cons_of_mem _ hb) hkb) hk2,
        except_bind_err]
    | false =>
      have hak : a.type = k := by
        rw [firstUnknownKind, hkk] at hk
        simpa using hk
      have hkk2 := hkk
      simp only [isKnownKind, Bool.or_eq_false_iff] at hkk2
      obtain ⟨⟨⟨h1, h2⟩, h3⟩, h4⟩ := hkk2
      have hmk : mkOne a = Except.error (PyError.exc (unknownKindMsg a.type)) := by
        unfold mkOne
        simp only [h1, h2, h3, h4, Bool.false_eq_true, if_false]
      show (do
        let x ← mkOne a
        let xs ← mkActions rest
        Except.ok (x :: xs)) = Except.error (PyError.exc (unknownKindMsg k))
      rw [hmk, except_bind_err, hak]

theorem mkJiraTemplate_error_of_firstUnknown (raw : RawTemplate) (k : String)
    (hwf : ∀ a ∈ raw.actions, isKnownKind a.type = true → isOkB (mkOne a) = true)
    (hk : firstUnknownKind raw.actions = some k) :
    mkJiraTemplate raw = Except.error (PyError.exc (unknownKindMsg k)) := by
  show (do
    let acts ← mkActions raw.actions
    Except.ok (⟨raw.trigger.map (fun t : RawTrigger => (⟨t.object_id, t.jql⟩ : Trigger)),
      acts⟩ : JiraTemplate)) = _
  rw [mkActions_firstUnknown k raw.actions hwf hk, except_bind_err]


/-- Claim C7: a declaration whose `input_id` is not a key of the pool makes
the resolver fail at once with a message containing that id and the phrase
"used before it was declared"; the pool is returned untouched for that
declaration (no extraction is performed). -/
theorem missing_reference_fails_named (pool : Pool) (d : ReferenceData)
    (rest : List ReferenceData)
    (h : dictMem pool d.reference_id = false) :
    update_reference_pool (d :: rest) pool =
      (pool, some (PyError.exc (missingRefMsg d.reference_id))) ∧
    strContains (missingRefMsg d.reference_id) d.reference_id ∧
    strContains (missingRefMsg d.reference_id) "used before it was declared" := by
  refine ⟨?_, strContains_append _ _ _, ?_⟩
  · unfold update_reference_pool
    rw [h]
    simp
  · show listInfixCheck ("used before it was declared").data
      (missingRefMsg d.reference_id).data = true
    have hm : (missingRefMsg d.reference_id).data =
        ("The reference id \x27".data ++ d.reference_id.data ++ "\x27 is ".data) ++
          (("used before it was declared").data ++ ".".data) := by
      show "The reference id \x27".data ++
          (d.reference_id.data ++ "\x27 is used before it was declared.".data) = _
      have hb : "\x27 is used before it was declared.".data =
          "\x27 is ".data ++ (("used before it was declared").data ++ ".".data) := rfl
      rw [hb]
      simp [List.append_assoc]
    rw [hm]
    exact listInfixCheck_append _ _ _

/-- Witness for C7 at a concrete empty pool and declaration. -/
theorem missing_reference_fails_named_witness :
    update_reference_pool [⟨"ghost", ["key"]⟩] [] =
      (([] : Pool), some (PyError.exc (missingRefMsg "ghost"))) ∧
    strContains (missingRefMsg "ghost") "ghost" ∧
    strContains (missingRefMsg "ghost") "used before it was declared" :=
  missing_reference_fails_named [] ⟨"ghost", ["key"]⟩ [] rfl

/-- Claim C9: substituting the pool holding issue.key and issue.summary
into the summary field resolves both placeholders, and a second run of the
substitution over the resolved payload changes nothing. -/
theorem substitution_idempotent_on_resolved_example :
    apply_reference_pool_to_payload
      [("issue.key", PoolVal.val (PyVal.str "TEST-123")),
       ("issue.summary", PoolVal.val (PyVal.str "Hello"))]
      [("summary", PyVal.str "$\x7bissue.key\x7d - $\x7bissue.summary\x7d")] =
      Except.ok [("summary", PyVal.str "TEST-123 - Hello")] ∧
    apply_reference_pool_to_payload
      [("issue.key", PoolVal.val (PyVal.str "TEST-123")),
       ("issue.summary", PoolVal.val (PyVal.str "Hello"))]
      [("summary", PyVal.str "TEST-123 - Hello")] =
      Except.ok [("summary", PyVal.str "TEST-123 - Hello")] :=
  ⟨rfl, rfl⟩

/-- Claim C8: a list-valued pool entry replaces the whole value of the
`components` field whenever the token occurs in its current value, and the
concrete example of the claim evaluates to the pool list itself. -/
theorem components_whole_value_replacement :
    (∀ (ref : String) (l : List PyVal) (fv : PyVal),
      pyContains fv (refToken ref) = Except.ok true →
      stepRefEntry "components" fv ref (PoolVal.val (PyVal.list l)) =
        Except.ok (PyVal.list l)) ∧
    apply_reference_pool_to_payload
      [("comp", PoolVal.val (PyVal.list
        [PyVal.dict [("name", PyVal.str "A")], PyVal.dict [("name", PyVal.str "B")]]))]
      [("components", PyVal.str "$\x7bcomp\x7d")] =
      Except.ok [("components", PyVal.list
        [PyVal.dict [("name", PyVal.str "A")],
         PyVal.dict [("name", PyVal.str "B")]])] := by
  constructor
  · intro ref l fv hc
    show (if ("components" : String) == "components" then do
        let b ← pyContains fv (refToken ref)
        if b then Except.ok (PyVal.list l) else Except.ok fv
      else Except.ok fv) = Except.ok (PyVal.list l)
    rw [hc]
    simp [except_bind_ok]
  · rfl

/-- Witness for the general part of C8 at a concrete field value. -/
theorem components_whole_value_replacement_witness :
    stepRefEntry "components" (PyVal.str "$\x7bx\x7d") "x"
      (PoolVal.val (PyVal.list [PyVal.dict [("name", PyVal.str "A")]])) =
      Except.ok (PyVal.list [PyVal.dict [("name", PyVal.str "A")]]) :=
  components_whole_value_replacement.1 "x"
    [PyVal.dict [("name", PyVal.str "A")]] (PyVal.str "$\x7bx\x7d") rfl

/-- Counterexample to C1 as stated: substitution is not total.  With pool
entry `r` bound to a string and an `issuetype` field holding a string, the
engine evaluates `fields["issuetype"]["name"]`, a `TypeError` in Python. -/
theorem substitution_total_counterexample :
    apply_reference_pool_to_payload [("r", PoolVal.val (PyVal.str "x"))]
      [("issuetype", PyVal.str "$\x7br\x7d")] =
      Except.error (PyError.typeError "string indices must be integers") := rfl

/-- Claim C1 (amended): on payloads whose specially dispatched fields are
well shaped and whose other fields are strings, and pools whose list
values hold no strings, substitution always succeeds; and a generic field
whose value contains no pool reference name is left verbatim. -/
theorem substitution_total_on_wf_payloads (pool : Pool) (fields : PyDict)
    (hpool : poolWF pool = true)
    (hf : fields.all (fun p => wfFieldVal p.1 p.2) = true) :
    (∃ out, apply_reference_pool_to_payload pool fields = Except.ok out) ∧
    (∀ f s, isSpecialField f = false →
      (∀ r pv, (r, pv) ∈ pool → strContainsB s r = false) →
      applyPoolToField f (PyVal.str s) pool = Except.ok (PyVal.str s)) := by
  refine ⟨apply_pool_wf pool hpool fields hf, ?_⟩
  intro f s hsp hn
  exact applyPoolToField_verbatim f s hsp pool hn

/-- Witness for C1 (amended) on a concrete pool and payload exercising
every field shape. -/
theorem substitution_total_on_wf_payloads_witness :
    ∃ out, apply_reference_pool_to_payload
      [("comp", PoolVal.val (PyVal.list [PyVal.dict [("name", PyVal.str "A")]])),
       ("c", PoolVal.val (PyVal.str "X"))]
      [("summary", PyVal.str "$\x7bc\x7d"),
       ("issuetype", PyVal.dict [("name", PyVal.str "$\x7bc\x7d")]),
       ("labels", PyVal.list [PyVal.str "$\x7bc\x7d"]),
       ("components", PyVal.str "$\x7bcomp\x7d"),
       ("count", PyVal.int 3)] = Except.ok out :=
  (substitution_total_on_wf_payloads
    [("comp", PoolVal.val (PyVal.list [PyVal.dict [("name", PyVal.str "A")]])),
     ("c", PoolVal.val (PyVal.str "X"))]
    [("summary", PyVal.str "$\x7bc\x7d"),
     ("issuetype", PyVal.dict [("name", PyVal.str "$\x7bc\x7d")]),
     ("labels", PyVal.list [PyVal.str "$\x7bc\x7d"]),
     ("components", PyVal.str "$\x7bcomp\x7d"),
     ("count", PyVal.int 3)] rfl rfl).1

/-- A handle whose generic field bag binds "id" to a value different from
the identity attribute, separating attribute reads from bag lookups. -/
def issueWithBagId : IssueHandle :=
  ⟨"ATTR", "K", "https://x/K", "Major", [], "PK", [("id", PyVal.str "BAG")]⟩

/-- Counterexample to C2 as stated: the field name `id` does not fall back
to a generic field-bag lookup; the resolver reads the identity attribute
of the handle, which can differ from the bag entry of the same name.
The same holds for `link` and `permalink`, which invoke the permalink
operation. -/
theorem resolver_fallback_counterexample :
    update_reference_pool [⟨"issue", ["id"]⟩]
      [("issue", PoolVal.issue issueWithBagId)] =
      ([("issue", PoolVal.issue issueWithBagId),
        ("issue.id", PoolVal.val (PyVal.str "ATTR"))], Option.none) ∧
    dictGet issueWithBagId.bag "id" = some (PyVal.str "BAG") ∧
    PyVal.str "ATTR" ≠ PyVal.str "BAG" := by
  refine ⟨rfl, rfl, ?_⟩
  intro h
  injection h with h2
  exact absurd h2 (by decide)

/-- Claim C2 (amended): resolving the five requested fields against a pool
binding "issue" to a handle writes exactly the five composite keys with
the described values, in order; and any field name other than id, key,
link, url, permalink, priority, components and project falls back to a
generic field-bag lookup. -/
theorem resolver_roundtrip_amended :
    (∀ h : IssueHandle,
      update_reference_pool
        [⟨"issue", ["key", "priority", "components", "project", "url"]⟩]
        [("issue", PoolVal.issue h)] =
      ([("issue", PoolVal.issue h),
        ("issue.key", PoolVal.val (PyVal.str h.key)),
        ("issue.priority", PoolVal.val (PyVal.str h.priority_name)),
        ("issue.components", PoolVal.val (PyVal.list
          (h.component_names.map (fun n => PyVal.dict [("name", PyVal.str n)])))),
        ("issue.project", PoolVal.val (PyVal.str h.project_key)),
        ("issue.url", PoolVal.val (PyVal.str h.permalink_url))], Option.none)) ∧
    (∀ (h : IssueHandle) (f : String) (w : PyVal),
      (f = "id" → False) → (f = "key" → False) → (f = "link" → False) →
      (f = "url" → False) → (f = "permalink" → False) →
      (f = "priority" → False) → (f = "components" → False) →
      (f = "project" → False) →
      dictGet h.bag f = some w →
      update_reference_pool [⟨"issue", [f]⟩] [("issue", PoolVal.issue h)] =
        ([("issue", PoolVal.issue h), ("issue." ++ f, PoolVal.val w)],
          Option.none)) := by
  constructor
  · intro h
    rfl
  · intro h f w h1 h2 h3 h4 h5 h6 h7 h8 hbag
    have hres : resolveField (PoolVal.issue h) f = Except.ok (PoolVal.val w) := by
      unfold resolveField
      simp only [beq_false_of_ne h1, beq_false_of_ne h2, beq_false_of_ne h3,
        beq_false_of_ne h4, beq_false_of_ne h5, beq_false_of_ne h6,
        beq_false_of_ne h7, beq_false_of_ne h8, Bool.or_self, Bool.or_false,
        Bool.false_eq_true, if_false]
      rw [hbag]
    have hkne : ("issue" == "issue." ++ f) = false := by
      apply beq_false_of_ne
      intro heq
      have hlen := congrArg String.length heq
      rw [String.length_append] at hlen
      have h5l : ("issue" : String).length = 5 := rfl
      have h6l : ("issue." : String).length = 6 := rfl
      rw [h5l, h6l] at hlen
      omega
    have hmem2 : dictMem [("issue", PoolVal.issue h)] ("issue." ++ f) = false := by
      show (dictGet [("issue", PoolVal.issue h)] ("issue." ++ f)).isSome = false
      rw [dictGet_cons_neg _ _ _ hkne]
      rfl
    have hset : dictSet [("issue", PoolVal.issue h)] ("issue." ++ f)
        (PoolVal.val w) =
        [("issue", PoolVal.issue h), ("issue." ++ f, PoolVal.val w)] := by
      unfold dictSet
      rw [hmem2]
      simp
    have hrf : resolveFields "issue" (PoolVal.issue h)
        [("issue", PoolVal.issue h)] [f] =
        ([("issue", PoolVal.issue h), ("issue." ++ f, PoolVal.val w)],
          Option.none) := by
      show (match resolveField (PoolVal.issue h) f with
        | Except.error e => (([("issue", PoolVal.issue h)] : Pool), some e)
        | Except.ok v => resolveFields "issue" (PoolVal.issue h)
            (dictSet [("issue", PoolVal.issue h)] ("issue." ++ f) v) []) = _
      rw [hres]
      show (dictSet [("issue", PoolVal.issue h)] ("issue." ++ f) (PoolVal.val w),
        (Option.none : Option PyError)) = _
      rw [hset]
    show (match resolveFields "issue" (PoolVal.issue h)
        [("issue", PoolVal.issue h)] [f] with
      | (pool2, some e) => (pool2, some e)
      | (pool2, Option.none) => update_reference_pool [] pool2) = _
    rw [hrf]
    rfl

/-- A handle used by the concrete fixtures below. -/
def issueForWitness : IssueHandle :=
  ⟨"1", "K-1", "https://x/K-1", "Major", ["c1"], "PK",
    [("summary", PyVal.str "S")]⟩

/-- Witness for C2 (amended): the generic fallback at the concrete field
name `summary`. -/
theorem resolver_roundtrip_amended_witness :
    update_reference_pool [⟨"issue", ["summary"]⟩]
      [("issue", PoolVal.issue issueForWitness)] =
      ([("issue", PoolVal.issue issueForWitness),
        ("issue." ++ "summary", PoolVal.val (PyVal.str "S"))], Option.none) :=
  resolver_roundtrip_amended.2 issueForWitness "summary" (PyVal.str "S")
    (by decide) (by decide) (by decide) (by decide) (by decide) (by decide)
    (by decide) (by decide) rfl

/-- The issue returned by the fixture session oracle. -/
def h3i : IssueHandle :=
  ⟨"10001", "TEST-1", "https://jira.example/TEST-1", "Major", ["backend"],
    "TEST", []⟩

/-- A session whose create call always yields `h3i` and whose searches
find nothing. -/
def sess3 : JIRA := ⟨fun _ => h3i, fun _ => []⟩

/-- A trigger-less template with one create-ticket action binding its
result to the output id "a". -/
def rawT3 : RawTemplate :=
  ⟨Option.none,
   [⟨"create-ticket",
     [("issuetype", PyVal.dict [("name", PyVal.str "Task")]),
      ("summary", PyVal.str "hello")],
     some "a", Option.none, Option.none, Option.none, []⟩]⟩

/-- Claim C3 is contradicted by the code: `execute_actions` declares its
pool parameter with the Python mutable default `reference_pool = {}`
(base.py line 137), a single dictionary created at definition time.  The
trigger-less path of `execute_template` omits the argument, so the pass
mutates that shared dictionary and a later invocation in the same process
starts from the leftover bindings instead of a fresh empty pool.  This
theorem evaluates the model at the failing input: after one run the shared
default pool holds the binding "a", it is not empty, and a second
invocation executes its pass against that non-empty pool. -/
theorem default_pool_persists_across_runs :
    (execute_template_model rawT3 sess3 []).1 = [("a", PoolVal.issue h3i)] ∧
    [("a", PoolVal.issue h3i)] ≠ ([] : Pool) ∧
    (execute_template_model rawT3 sess3 [("a", PoolVal.issue h3i)]).1 =
      [("a", PoolVal.issue h3i)] := by
  refine ⟨rfl, ?_, rfl⟩
  simp

/-- Claim C10: for update-ticket and transition actions the membership
check of the input `reference_id` runs only after the reference
declarations have been resolved and the payload substituted, so on the
invalid-reference raise the pool passed in has already been mutated to the
post-declaration pool; the error names the missing id. -/
theorem update_transition_check_after_mutation (a : ActionObj) (sess : JIRA)
    (pool pool2 : Pool) (flds : PyDict)
    (h1 : update_reference_pool a.reference_data pool = (pool2, Option.none))
    (h2 : apply_reference_pool_to_payload pool2 a.fields = Except.ok flds)
    (h3 : dictMem pool2 a.reference_id = false) :
    update_ticket a sess pool =
      (pool2, [], some (PyError.exc (invalidRefMsg a.reference_id))) ∧
    transition_issue a sess pool =
      (pool2, [], some (PyError.exc (invalidRefMsg a.reference_id))) ∧
    strContains (invalidRefMsg a.reference_id) a.reference_id := by
  refine ⟨?_, ?_, strContains_append _ _ _⟩
  · simp only [update_ticket, h1, h2, h3, Bool.false_eq_true, if_false]
  · simp only [transition_issue, h1, h2, h3, Bool.false_eq_true, if_false]

/-- The fixture action for the C10 witness: one declaration that writes
"t.key" into the pool, then a reference to a missing id. -/
def actC10 : ActionObj :=
  ⟨"update-ticket", [("summary", PyVal.str "x")], Option.none,
    [⟨"t", ["key"]⟩], "missing", "", ""⟩

/-- Witness for C10: the pool at the moment of the raise holds the fresh
binding "t.key" made by the declaration, so it differs from the input
pool — the failing action is not atomic. -/
theorem update_transition_check_after_mutation_witness :
    (update_ticket actC10 sess3 [("t", PoolVal.issue h3i)] =
      ([("t", PoolVal.issue h3i), ("t.key", PoolVal.val (PyVal.str "TEST-1"))],
        [], some (PyError.exc (invalidRefMsg "missing"))) ∧
     transition_issue actC10 sess3 [("t", PoolVal.issue h3i)] =
      ([("t", PoolVal.issue h3i), ("t.key", PoolVal.val (PyVal.str "TEST-1"))],
        [], some (PyError.exc (invalidRefMsg "missing"))) ∧
     strContains (invalidRefMsg "missing") "missing") ∧
    ([("t", PoolVal.issue h3i), ("t.key", PoolVal.val (PyVal.str "TEST-1"))] :
      Pool) ≠ [("t", PoolVal.issue h3i)] := by
  constructor
  · exact update_transition_check_after_mutation actC10 sess3
      [("t", PoolVal.issue h3i)]
      [("t", PoolVal.issue h3i), ("t.key", PoolVal.val (PyVal.str "TEST-1"))]
      [("summary", PyVal.str "x")] rfl rfl rfl
  · simp

/-- Claim C4: a triggered run over two matched issues is exactly two
independent passes; the pool handed to the action sequence of each pass is
the singleton binding of the trigger output id to that pass's issue, so no
binding made during the first pass (by actions or the resolver) is visible
in the second. -/
theorem per_pass_isolation (tmpl : JiraTemplate) (sess : JIRA) (trig : Trigger)
    (t1 t2 : IssueHandle) (h : tmpl.jira_search = some trig) :
    execute_actions_per_trigger_ticket [t1, t2] tmpl sess =
      (match execute_actions tmpl sess [(trig.object_id, PoolVal.issue t1)] with
       | (_, c1, some e) => (c1, some e)
       | (_, c1, Option.none) =>
         (match execute_actions tmpl sess
             [(trig.object_id, PoolVal.issue t2)] with
          | (_, c2, e2) => (c1 ++ c2, e2))) := by
  have hds1 : dictSet ([] : Pool) trig.object_id (PoolVal.issue t1) =
      [(trig.object_id, PoolVal.issue t1)] := rfl
  have hds2 : dictSet ([] : Pool) trig.object_id (PoolVal.issue t2) =
      [(trig.object_id, PoolVal.issue t2)] := rfl
  simp only [execute_actions_per_trigger_ticket, h]
  rcases h1 : execute_actions tmpl sess [(trig.object_id, PoolVal.issue t1)]
    with ⟨p1, c1, e1⟩
  cases e1 with
  | some e => simp only [trigger_loop, hds1, h1]
  | none =>
    rcases h2 : execute_actions tmpl sess [(trig.object_id, PoolVal.issue t2)]
      with ⟨p2, c2, e2⟩
    cases e2 with
    | some e =>
      simp only [trigger_loop, hds1, hds2, h1, h2]
    | none =>
      simp only [trigger_loop, hds1, hds2, h1, h2]
      simp

/-- A triggered template fixture: trigger output id "trig", one
create-ticket action. -/
def tmplC4 : JiraTemplate :=
  ⟨some ⟨"trig", "project = TEST"⟩,
   [⟨"create-ticket",
     [("issuetype", PyVal.dict [("name", PyVal.str "Task")]),
      ("summary", PyVal.str "hello")],
     some "a", [], "", "", ""⟩]⟩

/-- Witness for C4 on a concrete template, session and two tickets. -/
theorem per_pass_isolation_witness :
    execute_actions_per_trigger_ticket [h3i, issueForWitness] tmplC4 sess3 =
      (match execute_actions tmplC4 sess3 [("trig", PoolVal.issue h3i)] with
       | (_, c1, some e) => (c1, some e)
       | (_, c1, Option.none) =>
         (match execute_actions tmplC4 sess3
             [("trig", PoolVal.issue issueForWitness)] with
          | (_, c2, e2) => (c1 ++ c2, e2))) :=
  per_pass_isolation tmplC4 sess3 ⟨"trig", "project = TEST"⟩ h3i
    issueForWitness rfl

/-- Claim C5: when some action of the raw template carries an unrecognized
kind (and the actions of recognized kinds are constructible), the run
fails during load with the unknown-action exception naming the first
unrecognized kind, before any remote call is issued (the call trace is
empty); no validated template exists, so action-sequence execution, and
with it any silent skip, never happens. -/
theorem unknown_action_kind_rejected (raw : RawTemplate) (sess : JIRA)
    (dp : Pool) (k : String)
    (hwf : ∀ a ∈ raw.actions, isKnownKind a.type = true → isOkB (mkOne a) = true)
    (hk : firstUnknownKind raw.actions = some k) :
    execute_template_model raw sess dp =
      (dp, [], some (PyError.exc (unknownKindMsg k))) ∧
    strContains (unknownKindMsg k) k ∧
    (∀ tmpl : JiraTemplate, mkJiraTemplate raw ≠ Except.ok tmpl) := by
  have hmk := mkJiraTemplate_error_of_firstUnknown raw k hwf hk
  have hl : load_and_validate raw =
      Except.error (PyError.exc (unknownKindMsg k)) := by
    show (do
      let tmpl ← mkJiraTemplate raw
      match validate_uniqueness_of_object_ids tmpl with
      | some e => Except.error e
      | Option.none => Except.ok tmpl) = _
    rw [hmk, except_bind_err]
  refine ⟨?_, strContains_append _ _ _, ?_⟩
  · simp only [execute_template_model, hl]
  · intro tmpl hcontra
    rw [hmk] at hcontra
    exact Except.noConfusion hcontra

/-- A raw template whose second action kind is unrecognized. -/
def rawUnknown : RawTemplate :=
  ⟨Option.none,
   [⟨"create-ticket",
     [("issuetype", PyVal.dict [("name", PyVal.str "Task")])],
     Option.none, Option.none, Option.none, Option.none, []⟩,
    ⟨"flurb", [], Option.none, Option.none, Option.none, Option.none, []⟩]⟩

/-- Witness for C5 on a concrete raw template. -/
theorem unknown_action_kind_rejected_witness :
    execute_template_model rawUnknown sess3 [] =
      (([] : Pool), [], some (PyError.exc (unknownKindMsg "flurb"))) :=
  (unknown_action_kind_rejected rawUnknown sess3 [] "flurb"
    (by decide) rfl).1

/-- Duplicate-id fixture: four actions declaring ids qq, qq, zz, zz. -/
def tmplFour : JiraTemplate :=
  ⟨Option.none,
   [⟨"create-ticket", [], some "qq", [], "", "", ""⟩,
    ⟨"create-ticket", [], some "qq", [], "", "", ""⟩,
    ⟨"create-ticket", [], some "zz", [], "", "", ""⟩,
    ⟨"create-ticket", [], some "zz", [], "", "", ""⟩]⟩

/-- Counterexample to C6 as stated: in this template the third and fourth
actions declare the same object id "zz", validation does fail, but the
error message names only the most frequent duplicate ("qq", the earlier
one on this tie) and does not contain "zz". -/
theorem duplicate_object_ids_counterexample :
    validate_uniqueness_of_object_ids tmplFour =
      some (PyError.exc (dupIdMsg "qq")) ∧
    tmplFour.jira_actions.map (fun a => a.object_id) =
      [some "qq", some "qq", some "zz", some "zz"] ∧
    strContainsB (dupIdMsg "qq") "zz" = false := ⟨rfl, rfl, rfl⟩

/-- Claim C6 (amended): whenever the collected identifiers of a
constructible template are not pairwise distinct, the run fails at load
time before any action executes (no remote calls), with a message
containing the most frequently duplicated identifier (the earliest on
ties); in particular when exactly one identifier is duplicated the message
contains that identifier.  Actions with an empty-string id are exempt
because Python truthiness skips them during collection. -/
theorem duplicate_object_ids_amended (raw : RawTemplate) (sess : JIRA)
    (dp : Pool) (tmpl : JiraTemplate)
    (hmk : mkJiraTemplate raw = Except.ok tmpl)
    (hdup : (collectObjectIds tmpl).length ≠
      numDistinct (collectObjectIds tmpl)) :
    execute_template_model raw sess dp =
      (dp, [],
        some (PyError.exc (dupIdMsg (pyMaxByCount (collectObjectIds tmpl))))) ∧
    strContains (dupIdMsg (pyMaxByCount (collectObjectIds tmpl)))
      (pyMaxByCount (collectObjectIds tmpl)) ∧
    2 ≤ occ (pyMaxByCount (collectObjectIds tmpl)) (collectObjectIds tmpl) ∧
    (∀ x, 2 ≤ occ x (collectObjectIds tmpl) →
      (∀ y, 2 ≤ occ y (collectObjectIds tmpl) → y = x) →
      x = pyMaxByCount (collectObjectIds tmpl)) := by
  obtain ⟨x0, hx0mem, hx0occ⟩ := exists_dup_of_length_ne _ hdup
  have hne : collectObjectIds tmpl ≠ [] := List.ne_nil_of_mem hx0mem
  obtain ⟨hmax_mem, hmax⟩ := pyMaxByCount_spec _ hne
  have h2max : 2 ≤ occ (pyMaxByCount (collectObjectIds tmpl))
      (collectObjectIds tmpl) :=
    Nat.le_trans hx0occ (hmax x0 hx0mem)
  have hval : validate_uniqueness_of_object_ids tmpl =
      some (PyError.exc (dupIdMsg (pyMaxByCount (collectObjectIds tmpl)))) := by
    show (if (collectObjectIds tmpl).length == numDistinct (collectObjectIds tmpl)
      then (Option.none : Option PyError)
      else some (PyError.exc (dupIdMsg (pyMaxByCount (collectObjectIds tmpl))))) = _
    rw [beq_false_of_ne hdup]
    simp
  have hload : load_and_validate raw =
      Except.error (PyError.exc (dupIdMsg (pyMaxByCount (collectObjectIds tmpl)))) := by
    show (do
      let tmpl2 ← mkJiraTemplate raw
      match validate_uniqueness_of_object_ids tmpl2 with
      | some e => Except.error e
      | Option.none => Except.ok tmpl2) = _
    rw [hmk, except_bind_ok, hval]
  refine ⟨by simp only [execute_template_model, hload],
    strContains_append _ _ _, h2max, ?_⟩
  intro x hx2 huniq
  exact (huniq _ h2max).symm

/-- A raw template with two actions declaring the object id "qq". -/
def rawDup : RawTemplate :=
  ⟨Option.none,
   [⟨"create-ticket", [], some "qq", Option.none, Option.none, Option.none, []⟩,
    ⟨"create-ticket", [], some "qq", Option.none, Option.none, Option.none, []⟩]⟩

/-- The template object the loader builds from `rawDup`. -/
def tmplDup : JiraTemplate :=
  ⟨Option.none,
   [⟨"create-ticket", [], some "qq", [], "", "", ""⟩,
    ⟨"create-ticket", [], some "qq", [], "", "", ""⟩]⟩

/-- Witness for C6 (amended) on a concrete duplicated template. -/
theorem duplicate_object_ids_amended_witness :
    execute_template_model rawDup sess3 [] =
      (([] : Pool), [],
        some (PyError.exc (dupIdMsg (pyMaxByCount (collectObjectIds tmplDup))))) :=
  (duplicate_object_ids_amended rawDup sess3 [] tmplDup rfl (by decide)).1
